import Mathlib

/-!
Shallow embedding of the goscore scoreboard core (Host/Service uptime
accounting, probe result construction, configuration validation, and the
StateUpdater reconciliation step), together with theorems about it.

Conventions of the embedding:
* `time.Time` and `time.Duration` are both modelled as `Int` (nanoseconds);
  `a.Sub b` is `a - b`.  Overflow of Go's int64 is not modelled.
* `time.Now()` is an ambient input in Go; every function that reads the
  clock takes the current instant `now : Int` as an explicit argument.
* Channel sends are modelled by returning the list of messages sent during
  one invocation.
* `regexp.Match` (whose error result the code discards) is modelled as an
  abstract total function `rmatch : String → String → Bool` supplied by the
  probe environment, alongside the outcomes of the network dial / command
  capture, which are external-world inputs.
* Mutex/lock fields and the rendered page buffer of `State` are concurrency
  primitives with no pure content and are omitted from the record.
-/

namespace Goscore

/-- `Service` from service.go: an individual service contained by a Host. -/
structure Service where
  Name : String
  Port : String
  Command : String
  Response : String
  Protocol : String
  isUp : Bool
  uptime : Int
  downtime : Int
  previousUpdateTime : Int
deriving DecidableEq, Repr

set_option linter.dupNamespace false

/-- `ServiceUpdate` from service.go: the message shipped from update
functions to the StateUpdater thread. -/
structure ServiceUpdate where
  IP : String
  ServiceUpdate : Bool
  IsUp : Bool
  ServiceName : String
deriving DecidableEq, Repr

/-- `Host` from the host file: a Host that contains Services. -/
structure Host where
  Name : String
  Services : List Service
  IP : String
  isUp : Bool
  uptime : Int
  downtime : Int
  previousUpdateTime : Int
deriving DecidableEq, Repr

/-- `Service.IsUp`. -/
def Service.IsUp (service : Service) : Bool :=
  service.isUp

/-- `Service.SetUp` from service.go.  The Go body assigns
`service.isUp = state` and then branches on the just-assigned flag, so the
branch condition is `state`; each bucket is increased by
`now.Sub(service.previousUpdateTime)` computed from the pre-call flip
timestamp, after which the timestamp is set to `now`. -/
def Service.SetUp (service : Service) (now : Int) (state : Bool) : Service :=
  if service.isUp ≠ state then
    if state then
      { service with
          isUp := state
          downtime := service.downtime + (now - service.previousUpdateTime)
          previousUpdateTime := now }
    else
      { service with
          isUp := state
          uptime := service.uptime + (now - service.previousUpdateTime)
          previousUpdateTime := now }
  else
    service

/-- `Service.GetUptime` from service.go. -/
def Service.GetUptime (service : Service) (referenceTime : Int) : Int :=
  if service.isUp then
    service.uptime + (referenceTime - service.previousUpdateTime)
  else
    service.uptime

/-- `Service.GetDowntime` from service.go. -/
def Service.GetDowntime (service : Service) (referenceTime : Int) : Int :=
  if !service.isUp then
    service.downtime + (referenceTime - service.previousUpdateTime)
  else
    service.downtime

/-- `Host.IsUp`. -/
def Host.IsUp (host : Host) : Bool :=
  host.isUp

/-- `Host.SetUp`: textually the same bookkeeping as `Service.SetUp`. -/
def Host.SetUp (host : Host) (now : Int) (state : Bool) : Host :=
  if host.isUp ≠ state then
    if state then
      { host with
          isUp := state
          downtime := host.downtime + (now - host.previousUpdateTime)
          previousUpdateTime := now }
    else
      { host with
          isUp := state
          uptime := host.uptime + (now - host.previousUpdateTime)
          previousUpdateTime := now }
  else
    host

/-- `Host.GetUptime`. -/
def Host.GetUptime (host : Host) (referenceTime : Int) : Int :=
  if host.isUp then
    host.uptime + (referenceTime - host.previousUpdateTime)
  else
    host.uptime

/-- `Host.GetDowntime`. -/
def Host.GetDowntime (host : Host) (referenceTime : Int) : Int :=
  if !host.isUp then
    host.downtime + (referenceTime - host.previousUpdateTime)
  else
    host.downtime

/-- A sequence of `SetUp` calls on a Service, each with its own clock
reading, applied in order. -/
def Service.runSetUps (service : Service) (calls : List (Int × Bool)) : Service :=
  calls.foldl (fun s c => s.SetUp c.1 c.2) service

/-- A sequence of `SetUp` calls on a Host, applied in order. -/
def Host.runSetUps (host : Host) (calls : List (Int × Bool)) : Host :=
  calls.foldl (fun h c => h.SetUp c.1 c.2) host

/-- `Config`: the scoreboard configuration record.  Durations and time
points are `Int` nanoseconds. -/
structure Config where
  PingHosts : Bool
  TimeBetweenPingChecks : Int
  PingTimeout : Int
  TimeBetweenServiceChecks : Int
  ServiceTimeout : Int
  DefaultServiceState : Bool
  ScoreboardDoc : String
  ListenAddress : String
  CompetitionDuration : Int
  AdminName : String
  AdminPassword : String
  StartTime : Int
  StopTime : Int
  CompetitionEnded : Bool
deriving DecidableEq, Repr

/-- `State`: the scoreboard state.  The three mutexes and the rendered
`scoreboardPage` buffer carry no pure data and are omitted. -/
structure State where
  Hosts : List Host
  Config : Config
  Name : String
deriving DecidableEq, Repr

/-- The `UptimeTracking` interface, implemented by `Service` and `Host`. -/
class UptimeTracking (α : Type) where
  SetUp : α → Int → Bool → α
  IsUp : α → Bool
  GetUptime : α → Int → Int
  GetDowntime : α → Int → Int

instance : UptimeTracking Service where
  SetUp := Service.SetUp
  IsUp := Service.IsUp
  GetUptime := Service.GetUptime
  GetDowntime := Service.GetDowntime

instance : UptimeTracking Host where
  SetUp := Host.SetUp
  IsUp := Host.IsUp
  GetUptime := Host.GetUptime
  GetDowntime := Host.GetDowntime

/-- `State.GetUptime`: after the competition has ended the tracker is
evaluated at the frozen `StopTime`, otherwise at `time.Now()` (here the
explicit argument `now`). -/
def State.GetUptime {α : Type} [UptimeTracking α] (sbd : State) (now : Int)
    (tracker : α) : Int :=
  if sbd.Config.CompetitionEnded then
    UptimeTracking.GetUptime tracker sbd.Config.StopTime
  else
    UptimeTracking.GetUptime tracker now

/-- `State.GetDowntime`: the downtime counterpart of `State.GetUptime`. -/
def State.GetDowntime {α : Type} [UptimeTracking α] (sbd : State) (now : Int)
    (tracker : α) : Int :=
  if sbd.Config.CompetitionEnded then
    UptimeTracking.GetDowntime tracker sbd.Config.StopTime
  else
    UptimeTracking.GetDowntime tracker now

/-- External-world inputs of one `CheckService` invocation: the abstract
`regexp.Match` function (its discarded error collapsed into the Bool), the
outcome of `net.DialTimeout`, the bytes read from the connection, and the
two captured streams of the child process. -/
structure ProbeEnv where
  rmatch : String → String → Bool
  dialOk : Bool
  socketResponse : String
  cmdStdout : String
  cmdStderr : String

/-- `Service.CheckService` from service.go, as the list of `ServiceUpdate`
messages sent on `updateChannel` during one invocation.  `serviceUp` starts
false; the host-command branch matches the response pattern against both
captured streams; the socket branch requires a successful dial, then either
matches a configured pattern against the read bytes or reports up on the
bare connection; a failed dial leaves `serviceUp` false.  Exactly one
message is sent at the end. -/
def Service.CheckService (service : Service) (env : ProbeEnv) (ip : String) :
    List ServiceUpdate :=
  let serviceUp :=
    if service.Protocol = "host-command" then
      let foundInStdout := env.rmatch service.Response env.cmdStdout
      let foundInStderr := env.rmatch service.Response env.cmdStderr
      foundInStdout || foundInStderr
    else
      if env.dialOk then
        if service.Response.length > 0 then
          env.rmatch service.Response env.socketResponse
        else
          true
      else
        false
  [⟨ip, true, serviceUp, service.Name⟩]

/-- External-world inputs of one `PingHost` invocation: whether
`ping.NewPinger` succeeded, and the `PacketsRecv` statistic of the run. -/
structure PingEnv where
  pingerOk : Bool
  packetsRecv : Nat

/-- `Host.PingHost`: `pingSuccess` starts false and becomes
`PacketsRecv != 0` when the pinger could be built; exactly one message is
sent, flagged as an ICMP update with an empty service name. -/
def Host.PingHost (host : Host) (env : PingEnv) : List ServiceUpdate :=
  let pingSuccess :=
    if env.pingerOk then env.packetsRecv ≠ 0 else false
  [⟨host.IP, false, pingSuccess, ""⟩]

/-- Lookup in the `config:` string map of the YAML file; a missing key
yields the empty string, as a Go `map[string]string` does. -/
def mapGet (m : List (String × String)) (key : String) : String :=
  match m with
  | [] => ""
  | (k, v) :: rest => if k = key then v else mapGet rest key

/-- `YamlConfig`: the parsed YAML configuration. -/
structure YamlConfig where
  Hosts : List Host
  Config : List (String × String)

/-- The per-service field checks of `validateConfig`, in source order:
empty service name, empty protocol, missing port for a socket protocol,
missing command or response for host-command.  Returns the first error. -/
def validateServices (hostName : String) (services : List Service) :
    Option String :=
  match services with
  | [] => none
  | service :: rest =>
    if service.Name.length = 0 then
      some ("You must define the name of the service for " ++ hostName ++
        " under the service: field")
    else if service.Protocol.length = 0 then
      some ("You must define the protocol to use to test " ++ service.Name ++
        " on " ++ hostName)
    else if service.Protocol ≠ "host-command" ∧ service.Port.length = 0 then
      some ("You must define the port to connet to to test " ++ service.Name ++
        " on " ++ hostName)
    else if service.Protocol = "host-command" ∧
        (service.Command.length = 0 ∨ service.Response.length = 0) then
      some ("You must speicify a command and a response to run to test " ++
        service.Name ++ " on " ++ hostName ++ " in host-command mode")
    else
      validateServices hostName rest

/-- The per-host field checks of `validateConfig`, in source order: empty
host name, empty IP, empty service list, then every service. -/
def validateHosts (hosts : List Host) : Option String :=
  match hosts with
  | [] => none
  | host :: rest =>
    if host.Name.length = 0 then
      some "You must define the name of the host in the host: field under hosts:"
    else if host.IP.length = 0 then
      some ("You must define the IP field for " ++ host.Name ++
        " in the ip: field.")
    else if host.Services.length = 0 then
      some ("You must define at least one Service for " ++ host.Name ++
        " under the services: field")
    else
      match validateServices host.Name host.Services with
      | some err => some err
      | none => validateHosts rest

/-- `YamlConfig.validateConfig`: `none` models a nil error.  It checks only
presence (non-emptiness) of fields — `pingHosts` with its two dependents,
`serviceInterval`, `serviceTimeout`, at least one host, and the per-host and
per-service required fields.  It never attempts to compile the `Response`
pattern. -/
def YamlConfig.validateConfig (config : YamlConfig) : Option String :=
  if (mapGet config.Config "pingHosts").length = 0 then
    some "You must include the 'pingHosts:' field under 'config:'"
  else if mapGet config.Config "pingHosts" = "yes" ∧
      (mapGet config.Config "pingInterval").length = 0 then
    some "You must define the 'pingInterval:' field under 'config:'"
  else if mapGet config.Config "pingHosts" = "yes" ∧
      (mapGet config.Config "pingTimeout").length = 0 then
    some "You must define the 'pingTimeout:' field under 'config:'"
  else if (mapGet config.Config "serviceInterval").length = 0 then
    some "You must define the 'serviceInterval:' field under 'config:'"
  else if (mapGet config.Config "serviceTimeout").length = 0 then
    some "You must define the 'serviceTimeout:' field under 'config:'"
  else if config.Hosts.length < 1 then
    some "There must be at least one service defined in the config file!"
  else
    validateHosts config.Hosts

/-- What the StateUpdater does to the matched service: call `SetUp` when
the incoming flag contradicts the current state (the write-lock path),
otherwise only log. -/
def reconcileService (now : Int) (service : Service) (u : ServiceUpdate) :
    Service :=
  if service.isUp ≠ u.IsUp then service.SetUp now u.IsUp else service

/-- The service-update arm of the StateUpdater's inner scan: walk the
host's services, reconcile the first one whose `Name` equals the update's
`ServiceName`, then stop scanning (the `break`). -/
def updateServices (now : Int) (services : List Service) (u : ServiceUpdate) :
    List Service :=
  match services with
  | [] => []
  | service :: rest =>
    if service.Name = u.ServiceName then
      reconcileService now service u :: rest
    else
      service :: updateServices now rest u

/-- The ICMP arm of the StateUpdater: call `Host.SetUp` when the incoming
flag contradicts the current state, otherwise only log. -/
def reconcileHostPing (now : Int) (host : Host) (u : ServiceUpdate) : Host :=
  if host.isUp ≠ u.IsUp then host.SetUp now u.IsUp else host

/-- What the StateUpdater does to the matched host: for a service update it
rewrites the service list, for an ICMP update it reconciles the host's
reachability flag. -/
def applyToHost (now : Int) (host : Host) (u : ServiceUpdate) : Host :=
  if u.ServiceUpdate then
    { host with Services := updateServices now host.Services u }
  else
    reconcileHostPing now host u

/-- The StateUpdater's outer scan: walk the hosts, and at the first one
whose `IP` equals the update's `IP`, apply the update and stop scanning. -/
def updateHosts (now : Int) (hosts : List Host) (u : ServiceUpdate) :
    List Host :=
  match hosts with
  | [] => []
  | host :: rest =>
    if u.IP = host.IP then
      applyToHost now host u :: rest
    else
      host :: updateHosts now rest u

/-- One iteration of `State.StateUpdater` that received the message `u`:
the reconciliation step, with the lock manipulation and debug logging
stripped away. -/
def State.stateUpdaterStep (sbd : State) (now : Int) (u : ServiceUpdate) :
    State :=
  { sbd with Hosts := updateHosts now sbd.Hosts u }

/-- A batch of messages drained by the StateUpdater in order, all
reconciled at the instant `now`. -/
def State.stateUpdaterRun (sbd : State) (now : Int)
    (updates : List ServiceUpdate) : State :=
  updates.foldl (fun acc u => acc.stateUpdaterStep now u) sbd

/-- The identity key of a message, as the spec describes it: the host
address for ICMP updates, the host address plus the service name for
service updates. -/
def updateKey (u : ServiceUpdate) : String × Option String :=
  if u.ServiceUpdate then (u.IP, some u.ServiceName) else (u.IP, none)

/-! Concrete fixtures used by the witness theorems below. -/

/-- A sample tcp service that starts down at instant 0. -/
def webService : Service :=
  { Name := "web", Port := "80", Command := "", Response := "",
    isUp := false, uptime := 0, downtime := 0, previousUpdateTime := 0,
    Protocol := "tcp" }

/-- A sample host carrying `webService`, down at instant 0. -/
def alphaHost : Host :=
  { Name := "alpha", Services := [webService], IP := "10.0.0.1",
    isUp := false, uptime := 0, downtime := 0, previousUpdateTime := 0 }

/-- A second sample host with no services. -/
def betaHost : Host :=
  { Name := "beta", Services := [], IP := "10.0.0.2",
    isUp := false, uptime := 0, downtime := 0, previousUpdateTime := 0 }

/-- A sample configuration; the competition ran from 0 to 1000 and has
ended. -/
def sampleConfig : Config :=
  { PingHosts := true, TimeBetweenPingChecks := 60, PingTimeout := 5,
    TimeBetweenServiceChecks := 60, ServiceTimeout := 5,
    DefaultServiceState := false, ScoreboardDoc := "", ListenAddress := ":80",
    CompetitionDuration := 1000, AdminName := "admin",
    AdminPassword := "password", StartTime := 0, StopTime := 1000,
    CompetitionEnded := true }

/-- A sample scoreboard holding the two hosts above. -/
def sampleState : State :=
  { Hosts := [alphaHost, betaHost], Config := sampleConfig, Name := "ctf" }

/-- A sample probe environment: the dial succeeds and the abstract matcher
tests string equality. -/
def sampleProbeEnv : ProbeEnv :=
  { rmatch := fun pattern s => pattern = s, dialOk := true,
    socketResponse := "ok", cmdStdout := "", cmdStderr := "" }

/-- A service whose response pattern "[" is not a compilable regular
expression (Go regexp rejects the unterminated character class). -/
def badPatternService : Service :=
  { Name := "web", Port := "80", Command := "", Response := "[",
    Protocol := "tcp", isUp := false, uptime := 0, downtime := 0,
    previousUpdateTime := 0 }

/-- The host of the configuration file below, carrying
`badPatternService`. -/
def badPatternHost : Host :=
  { Name := "alpha", Services := [badPatternService], IP := "10.0.0.1",
    isUp := false, uptime := 0, downtime := 0, previousUpdateTime := 0 }

/-- A configuration file carrying `badPatternService`, with every field
that `validateConfig` requires present. -/
def badPatternYamlConfig : YamlConfig :=
  { Hosts := [badPatternHost],
    Config := [("pingHosts", "no"), ("serviceInterval", "60s"),
      ("serviceTimeout", "5s")] }

/-! Helper lemmas about the uptime bookkeeping. -/

theorem service_getUptime_add_getDowntime (service : Service) (t : Int) :
    service.GetUptime t + service.GetDowntime t =
      service.uptime + service.downtime + (t - service.previousUpdateTime) := by
  cases h : service.isUp <;>
    simp [Service.GetUptime, Service.GetDowntime, h] <;> ring

theorem host_getUptime_add_getDowntime (host : Host) (t : Int) :
    host.GetUptime t + host.GetDowntime t =
      host.uptime + host.downtime + (t - host.previousUpdateTime) := by
  cases h : host.isUp <;>
    simp [Host.GetUptime, Host.GetDowntime, h] <;> ring

theorem service_setUp_measure (service : Service) (now : Int) (state : Bool) :
    (service.SetUp now state).uptime + (service.SetUp now state).downtime -
        (service.SetUp now state).previousUpdateTime =
      service.uptime + service.downtime - service.previousUpdateTime := by
  by_cases h : service.isUp ≠ state
  · cases state <;> simp [Service.SetUp, h] <;> ring
  · simp [Service.SetUp, h]

theorem host_setUp_measure (host : Host) (now : Int) (state : Bool) :
    (host.SetUp now state).uptime + (host.SetUp now state).downtime -
        (host.SetUp now state).previousUpdateTime =
      host.uptime + host.downtime - host.previousUpdateTime := by
  by_cases h : host.isUp ≠ state
  · cases state <;> simp [Host.SetUp, h] <;> ring
  · simp [Host.SetUp, h]

theorem service_runSetUps_measure (service : Service)
    (calls : List (Int × Bool)) :
    (service.runSetUps calls).uptime + (service.runSetUps calls).downtime -
        (service.runSetUps calls).previousUpdateTime =
      service.uptime + service.downtime - service.previousUpdateTime := by
  induction calls generalizing service with
  | nil => rfl
  | cons c rest ih =>
    have h1 := service_setUp_measure service c.1 c.2
    have h2 := ih (service.SetUp c.1 c.2)
    simpa [Service.runSetUps] using h2.trans h1

theorem host_runSetUps_measure (host : Host) (calls : List (Int × Bool)) :
    (host.runSetUps calls).uptime + (host.runSetUps calls).downtime -
        (host.runSetUps calls).previousUpdateTime =
      host.uptime + host.downtime - host.previousUpdateTime := by
  induction calls generalizing host with
  | nil => rfl
  | cons c rest ih =>
    have h1 := host_setUp_measure host c.1 c.2
    have h2 := ih (host.SetUp c.1 c.2)
    simpa [Host.runSetUps] using h2.trans h1

/-- C1: for every Host and every Service and any two observation instants
t1 < t2, across any sequence of SetUp calls in between, the increase of
GetUptime plus the increase of GetDowntime (evaluated at t1 and t2
respectively) equals t2 - t1: time is conserved between the two buckets and
is never double-counted or lost across a state flip. -/
theorem uptime_downtime_conservation :
    (∀ (service : Service) (calls : List (Int × Bool)) (t1 t2 : Int),
      t1 < t2 →
      ((service.runSetUps calls).GetUptime t2 - service.GetUptime t1) +
        ((service.runSetUps calls).GetDowntime t2 - service.GetDowntime t1) =
        t2 - t1) ∧
    (∀ (host : Host) (calls : List (Int × Bool)) (t1 t2 : Int),
      t1 < t2 →
      ((host.runSetUps calls).GetUptime t2 - host.GetUptime t1) +
        ((host.runSetUps calls).GetDowntime t2 - host.GetDowntime t1) =
        t2 - t1) := by
  constructor
  · intro service calls t1 t2 _
    have h2 := service_getUptime_add_getDowntime (service.runSetUps calls) t2
    have h1 := service_getUptime_add_getDowntime service t1
    have hm := service_runSetUps_measure service calls
    omega
  · intro host calls t1 t2 _
    have h2 := host_getUptime_add_getDowntime (host.runSetUps calls) t2
    have h1 := host_getUptime_add_getDowntime host t1
    have hm := host_runSetUps_measure host calls
    omega

/-- Concrete instantiation of `uptime_downtime_conservation`: a service that
starts down at time 0, is flipped up at 3 and back down at 7, observed at
t1 = 1 and t2 = 10. -/
theorem uptime_downtime_conservation_witness :
    ((webService.runSetUps [(3, true), (7, false)]).GetUptime 10 -
        webService.GetUptime 1) +
      ((webService.runSetUps [(3, true), (7, false)]).GetDowntime 10 -
        webService.GetDowntime 1) = 10 - 1 :=
  uptime_downtime_conservation.1 webService [(3, true), (7, false)] 1 10
    (by decide)

/-- C3: for every Service and Host, SetUp with the current flag is a no-op
(the state is returned unchanged); otherwise exactly now -
previousUpdateTime is added to the downtime bucket when transitioning to
up and to the uptime bucket when transitioning to down, the other bucket is
left unchanged, the flip timestamp is set to now, and the flag becomes the
new state. -/
theorem setUp_flip_semantics :
    (∀ (service : Service) (now : Int),
      service.SetUp now service.isUp = service ∧
      (service.isUp = false →
        (service.SetUp now true).downtime =
            service.downtime + (now - service.previousUpdateTime) ∧
          (service.SetUp now true).uptime = service.uptime ∧
          (service.SetUp now true).previousUpdateTime = now ∧
          (service.SetUp now true).isUp = true) ∧
      (service.isUp = true →
        (service.SetUp now false).uptime =
            service.uptime + (now - service.previousUpdateTime) ∧
          (service.SetUp now false).downtime = service.downtime ∧
          (service.SetUp now false).previousUpdateTime = now ∧
          (service.SetUp now false).isUp = false)) ∧
    (∀ (host : Host) (now : Int),
      host.SetUp now host.isUp = host ∧
      (host.isUp = false →
        (host.SetUp now true).downtime =
            host.downtime + (now - host.previousUpdateTime) ∧
          (host.SetUp now true).uptime = host.uptime ∧
          (host.SetUp now true).previousUpdateTime = now ∧
          (host.SetUp now true).isUp = true) ∧
      (host.isUp = true →
        (host.SetUp now false).uptime =
            host.uptime + (now - host.previousUpdateTime) ∧
          (host.SetUp now false).downtime = host.downtime ∧
          (host.SetUp now false).previousUpdateTime = now ∧
          (host.SetUp now false).isUp = false)) := by
  constructor
  · intro service now
    refine ⟨by simp [Service.SetUp], ?_, ?_⟩
    · intro h; simp [Service.SetUp, h]
    · intro h; simp [Service.SetUp, h]
  · intro host now
    refine ⟨by simp [Host.SetUp], ?_, ?_⟩
    · intro h; simp [Host.SetUp, h]
    · intro h; simp [Host.SetUp, h]

/-- Concrete instantiation of `setUp_flip_semantics`: flipping the sample
service (down since 0) up at instant 4 charges 4 to the downtime bucket,
leaves uptime at 0, and moves the flip timestamp to 4. -/
theorem setUp_flip_semantics_witness :
    webService.SetUp 4 webService.isUp = webService ∧
      (webService.SetUp 4 true).downtime = webService.downtime +
        (4 - webService.previousUpdateTime) ∧
      (webService.SetUp 4 true).uptime = webService.uptime ∧
      (webService.SetUp 4 true).previousUpdateTime = 4 ∧
      (webService.SetUp 4 true).isUp = true := by
  have h := setUp_flip_semantics.1 webService 4
  exact ⟨h.1, h.2.1 (by decide)⟩

/-- C4: for every Service and Host, GetUptime(referenceTime) returns the
uptime bucket plus referenceTime - previousUpdateTime exactly when the
entity is currently up and the bare bucket otherwise; GetDowntime adds the
in-progress span exactly when the entity is currently down. -/
theorem getUptime_getDowntime_semantics :
    (∀ (service : Service) (t : Int),
      (service.isUp = true →
        service.GetUptime t =
          service.uptime + (t - service.previousUpdateTime)) ∧
      (service.isUp = false → service.GetUptime t = service.uptime) ∧
      (service.isUp = false →
        service.GetDowntime t =
          service.downtime + (t - service.previousUpdateTime)) ∧
      (service.isUp = true → service.GetDowntime t = service.downtime)) ∧
    (∀ (host : Host) (t : Int),
      (host.isUp = true →
        host.GetUptime t = host.uptime + (t - host.previousUpdateTime)) ∧
      (host.isUp = false → host.GetUptime t = host.uptime) ∧
      (host.isUp = false →
        host.GetDowntime t =
          host.downtime + (t - host.previousUpdateTime)) ∧
      (host.isUp = true → host.GetDowntime t = host.downtime)) := by
  constructor
  · intro service t
    refine ⟨fun h => ?_, fun h => ?_, fun h => ?_, fun h => ?_⟩ <;>
      simp [Service.GetUptime, Service.GetDowntime, h]
  · intro host t
    refine ⟨fun h => ?_, fun h => ?_, fun h => ?_, fun h => ?_⟩ <;>
      simp [Host.GetUptime, Host.GetDowntime, h]

/-- Concrete instantiation of `getUptime_getDowntime_semantics`: the sample
service is down, so at reference time 9 its uptime is the bare bucket and
its downtime includes the in-progress span. -/
theorem getUptime_getDowntime_semantics_witness :
    webService.GetUptime 9 = webService.uptime ∧
      webService.GetDowntime 9 =
        webService.downtime + (9 - webService.previousUpdateTime) := by
  have h := getUptime_getDowntime_semantics.1 webService 9
  exact ⟨h.2.1 (by decide), h.2.2.1 (by decide)⟩

/-- C5: once `Config.CompetitionEnded` is true, `State.GetUptime` and
`State.GetDowntime` evaluate the tracker at the frozen `Config.StopTime`
rather than the current time, so for a fixed tracker they return the same
value no matter how much further wall-clock time passes. -/
theorem frozen_accounting_after_end {α : Type} [UptimeTracking α]
    (sbd : State) (tracker : α) (now1 now2 : Int)
    (h : sbd.Config.CompetitionEnded = true) :
    sbd.GetUptime now1 tracker =
        UptimeTracking.GetUptime tracker sbd.Config.StopTime ∧
      sbd.GetDowntime now1 tracker =
        UptimeTracking.GetDowntime tracker sbd.Config.StopTime ∧
      sbd.GetUptime now1 tracker = sbd.GetUptime now2 tracker ∧
      sbd.GetDowntime now1 tracker = sbd.GetDowntime now2 tracker := by
  simp [State.GetUptime, State.GetDowntime, h]

/-- Concrete instantiation of `frozen_accounting_after_end`: the sample
competition has ended, so querying the sample service at wall-clock 1234
and at 999999 gives the same uptime and downtime. -/
theorem frozen_accounting_after_end_witness :
    sampleState.GetUptime 1234 webService =
        sampleState.GetUptime 999999 webService ∧
      sampleState.GetDowntime 1234 webService =
        sampleState.GetDowntime 999999 webService := by
  have h := frozen_accounting_after_end sampleState webService 1234 999999
    (by decide)
  exact ⟨h.2.2.1, h.2.2.2⟩

/-- Helper: a string of length zero is the empty string. -/
theorem stringLength_eq_zero {s : String} (h : s.length = 0) : s = "" := by
  cases s with
  | mk data =>
    cases data with
    | nil => rfl
    | cons c cs => simp [String.length] at h

/-- C6: for a tcp/udp service probe, a failed dial emits down and raises no
error; a successful dial with no configured response pattern emits up on
the connection alone; with a configured pattern the emitted flag is exactly
the result of matching the pattern against the bytes read. -/
theorem checkService_socket_semantics (service : Service) (env : ProbeEnv)
    (ip : String)
    (hproto : service.Protocol = "tcp" ∨ service.Protocol = "udp") :
    (env.dialOk = false →
      service.CheckService env ip = [⟨ip, true, false, service.Name⟩]) ∧
    (env.dialOk = true → service.Response = "" →
      service.CheckService env ip = [⟨ip, true, true, service.Name⟩]) ∧
    (env.dialOk = true → service.Response ≠ "" →
      service.CheckService env ip =
        [⟨ip, true, env.rmatch service.Response env.socketResponse,
          service.Name⟩]) := by
  have hnot : ¬ service.Protocol = "host-command" := by
    rcases hproto with h | h <;> simp [h]
  refine ⟨fun hd => ?_, fun hd hr => ?_, fun hd hr => ?_⟩
  · simp [Service.CheckService, hnot, hd]
  · simp [Service.CheckService, hnot, hd, hr]
  · have hlen : 0 < service.Response.length := by
      cases hlen0 : service.Response.length with
      | zero => exact absurd (stringLength_eq_zero hlen0) hr
      | succ n => omega
    simp [Service.CheckService, hnot, hd, hlen]

/-- Concrete instantiation of `checkService_socket_semantics`: the sample
tcp service has no response pattern and the sample environment dials
successfully, so the emitted result is up. -/
theorem checkService_socket_semantics_witness :
    webService.CheckService sampleProbeEnv "10.0.0.1" =
      [⟨"10.0.0.1", true, true, webService.Name⟩] :=
  (checkService_socket_semantics webService sampleProbeEnv "10.0.0.1"
    (Or.inl rfl)).2.1 rfl rfl

/-- The deterministic fragment of the host-command branch (supporting
lemma): whatever the two captured streams hold, the emitted flag is up
exactly when the response pattern matches the captured stdout or the
captured stderr. -/
theorem checkService_hostCommand_match (service : Service) (env : ProbeEnv)
    (ip : String) (h : service.Protocol = "host-command") :
    service.CheckService env ip =
      [⟨ip, true,
        env.rmatch service.Response env.cmdStdout ||
          env.rmatch service.Response env.cmdStderr, service.Name⟩] := by
  simp [Service.CheckService, h]

/-- C8: every probe invocation sends exactly one ServiceUpdate message: a
CheckService invocation sends one message carrying the probed host's
address, the discriminator true and the service's name; a PingHost
invocation sends one message carrying the host's address, the
discriminator false and an empty service-name string. -/
theorem probe_emits_exactly_one (service : Service) (env : ProbeEnv)
    (ip : String) (host : Host) (penv : PingEnv) :
    (service.CheckService env ip).length = 1 ∧
      (∃ up, service.CheckService env ip = [⟨ip, true, up, service.Name⟩]) ∧
      (host.PingHost penv).length = 1 ∧
      (∃ up, host.PingHost penv = [⟨host.IP, false, up, ""⟩]) :=
  ⟨rfl, ⟨_, rfl⟩, rfl, ⟨_, rfl⟩⟩

/-- C2 fails on the code: `validateConfig` checks only that required fields
are non-empty and never attempts to compile the `Response` pattern, so the
configuration whose only service carries the uncompilable pattern "[" is
accepted (a nil error is returned) and probing starts; at probe time the
match error is discarded and the check silently reports down. -/
theorem validateConfig_accepts_uncompilable_pattern :
    badPatternYamlConfig.validateConfig = none := by
  decide

/-- Run-time consequence of the C2 gap (supporting lemma): with an
uncompilable pattern `regexp.Match` reports an error that the probe code
discards, which the environment models as a matcher that never matches, so
the probe silently emits down even though the dial succeeded. -/
theorem badPattern_probe_silently_down (env : ProbeEnv) (ip : String)
    (hmatch : env.rmatch = fun _ _ => false) (hd : env.dialOk = true) :
    badPatternService.CheckService env ip =
      [⟨ip, true, false, badPatternService.Name⟩] := by
  simp [Service.CheckService, badPatternService, hmatch, hd]
  decide

/-! Helper lemmas for the StateUpdater reconciliation step. -/

theorem Service.setUp_Name (service : Service) (now : Int) (state : Bool) :
    (service.SetUp now state).Name = service.Name := by
  by_cases h : service.isUp ≠ state
  · cases state <;> simp [Service.SetUp, h]
  · simp [Service.SetUp, h]

theorem reconcileService_Name (now : Int) (service : Service)
    (u : ServiceUpdate) :
    (reconcileService now service u).Name = service.Name := by
  by_cases h : service.isUp ≠ u.IsUp <;>
    simp [reconcileService, h, Service.setUp_Name]

theorem Host.setUp_IP (host : Host) (now : Int) (state : Bool) :
    (host.SetUp now state).IP = host.IP := by
  by_cases h : host.isUp ≠ state
  · cases state <;> simp [Host.SetUp, h]
  · simp [Host.SetUp, h]

theorem Host.setUp_Services (host : Host) (now : Int) (state : Bool) :
    (host.SetUp now state).Services = host.Services := by
  by_cases h : host.isUp ≠ state
  · cases state <;> simp [Host.SetUp, h]
  · simp [Host.SetUp, h]

theorem reconcileHostPing_IP (now : Int) (host : Host) (u : ServiceUpdate) :
    (reconcileHostPing now host u).IP = host.IP := by
  by_cases h : host.isUp ≠ u.IsUp <;>
    simp [reconcileHostPing, h, Host.setUp_IP]

theorem reconcileHostPing_Services (now : Int) (host : Host)
    (u : ServiceUpdate) :
    (reconcileHostPing now host u).Services = host.Services := by
  by_cases h : host.isUp ≠ u.IsUp <;>
    simp [reconcileHostPing, h, Host.setUp_Services]

theorem applyToHost_IP (now : Int) (host : Host) (u : ServiceUpdate) :
    (applyToHost now host u).IP = host.IP := by
  by_cases h : u.ServiceUpdate = true <;>
    simp [applyToHost, h, reconcileHostPing_IP]

theorem reconcileHostPing_setServices (now : Int) (host : Host)
    (u : ServiceUpdate) (services : List Service) :
    reconcileHostPing now { host with Services := services } u =
      { reconcileHostPing now host u with Services := services } := by
  cases hh : host.isUp <;> cases hu : u.IsUp <;>
    simp [reconcileHostPing, Host.SetUp, hh, hu]

theorem updateServices_comm (now : Int) (services : List Service)
    (u1 u2 : ServiceUpdate) (h : u1.ServiceName ≠ u2.ServiceName) :
    updateServices now (updateServices now services u1) u2 =
      updateServices now (updateServices now services u2) u1 := by
  induction services with
  | nil => rfl
  | cons service rest ih =>
    by_cases h1 : service.Name = u1.ServiceName
    · have h2 : ¬ service.Name = u2.ServiceName := by rw [h1]; exact h
      simp [updateServices, h1, h2, reconcileService_Name, h, Ne.symm h]
    · by_cases h2 : service.Name = u2.ServiceName
      · simp [updateServices, h1, h2, reconcileService_Name, h, Ne.symm h]
      · simp [updateServices, h1, h2, ih]

theorem applyToHost_comm (now : Int) (host : Host) (u1 u2 : ServiceUpdate)
    (hk : updateKey u1 ≠ updateKey u2) (hip : u1.IP = u2.IP) :
    applyToHost now (applyToHost now host u1) u2 =
      applyToHost now (applyToHost now host u2) u1 := by
  by_cases s1 : u1.ServiceUpdate = true <;>
    by_cases s2 : u2.ServiceUpdate = true
  · have hn : u1.ServiceName ≠ u2.ServiceName := by
      intro e; exact hk (by simp [updateKey, s1, s2, hip, e])
    simp [applyToHost, s1, s2]
    exact updateServices_comm now host.Services u1 u2 hn
  · simp [applyToHost, s1, s2, reconcileHostPing_setServices,
      reconcileHostPing_Services]
  · simp [applyToHost, s1, s2, reconcileHostPing_setServices,
      reconcileHostPing_Services]
  · exact absurd (by simp [updateKey, s1, s2, hip]) hk

theorem updateHosts_comm (now : Int) (hosts : List Host)
    (u1 u2 : ServiceUpdate) (hk : updateKey u1 ≠ updateKey u2) :
    updateHosts now (updateHosts now hosts u1) u2 =
      updateHosts now (updateHosts now hosts u2) u1 := by
  induction hosts with
  | nil => rfl
  | cons host rest ih =>
    by_cases c1 : u1.IP = host.IP <;> by_cases c2 : u2.IP = host.IP
    · have hip : u1.IP = u2.IP := c1.trans c2.symm
      simp [updateHosts, c1, c2, applyToHost_IP]
      exact applyToHost_comm now host u1 u2 hk hip
    · simp [updateHosts, c1, c2, applyToHost_IP]
    · simp [updateHosts, c1, c2, applyToHost_IP]
    · simp [updateHosts, c1, c2, ih]

theorem stateUpdaterStep_comm (sbd : State) (now : Int)
    (u1 u2 : ServiceUpdate) (hk : updateKey u1 ≠ updateKey u2) :
    (sbd.stateUpdaterStep now u1).stateUpdaterStep now u2 =
      (sbd.stateUpdaterStep now u2).stateUpdaterStep now u1 := by
  simp [State.stateUpdaterStep]
  exact updateHosts_comm now sbd.Hosts u1 u2 hk

theorem stateUpdaterRun_cons (sbd : State) (now : Int) (u : ServiceUpdate)
    (us : List ServiceUpdate) :
    sbd.stateUpdaterRun now (u :: us) =
      (sbd.stateUpdaterStep now u).stateUpdaterRun now us :=
  rfl

theorem stateUpdaterRun_perm_aux (now : Int) {l1 l2 : List ServiceUpdate}
    (p : l1.Perm l2) :
    l1.Pairwise (fun a b => updateKey a ≠ updateKey b) →
    ∀ sbd : State, sbd.stateUpdaterRun now l1 = sbd.stateUpdaterRun now l2 := by
  induction p with
  | nil => intro _ _; rfl
  | cons x p ih =>
    intro hpw sbd
    rw [stateUpdaterRun_cons, stateUpdaterRun_cons]
    exact ih (List.pairwise_cons.1 hpw).2 _
  | swap x y l =>
    intro hpw sbd
    have hxy : updateKey y ≠ updateKey x :=
      (List.pairwise_cons.1 hpw).1 x (by simp)
    rw [stateUpdaterRun_cons, stateUpdaterRun_cons, stateUpdaterRun_cons,
      stateUpdaterRun_cons, stateUpdaterStep_comm sbd now y x hxy]
  | trans p1 p2 ih1 ih2 =>
    intro hpw sbd
    rw [ih1 hpw sbd,
      ih2 ((p1.pairwise_iff fun hab => Ne.symm hab).1 hpw) sbd]

/-- C9: a batch of ServiceUpdate messages with pairwise-distinct identity
keys (host address for ICMP updates, host address plus service name for
service updates) reconciles to the same final scoreboard state in any
processing order; for two messages with the same key the final state can
depend on the order. -/
theorem stateUpdater_order_independence :
    (∀ (now : Int) (sbd : State) (l1 l2 : List ServiceUpdate),
      l1.Pairwise (fun a b => updateKey a ≠ updateKey b) → l1.Perm l2 →
      sbd.stateUpdaterRun now l1 = sbd.stateUpdaterRun now l2) ∧
    (∃ (now : Int) (sbd : State) (u1 u2 : ServiceUpdate),
      updateKey u1 = updateKey u2 ∧
      sbd.stateUpdaterRun now [u1, u2] ≠ sbd.stateUpdaterRun now [u2, u1]) := by
  constructor
  · intro now sbd l1 l2 hpw p
    exact stateUpdaterRun_perm_aux now p hpw sbd
  · refine ⟨5, sampleState, ⟨"10.0.0.1", false, true, ""⟩,
      ⟨"10.0.0.1", false, false, ""⟩, rfl, ?_⟩
    decide

/-- Concrete instantiation of `stateUpdater_order_independence`: two ICMP
results for the two distinct sample hosts reconcile to the same state in
either order. -/
theorem stateUpdater_order_independence_witness :
    sampleState.stateUpdaterRun 5
        [⟨"10.0.0.1", false, true, ""⟩, ⟨"10.0.0.2", false, true, ""⟩] =
      sampleState.stateUpdaterRun 5
        [⟨"10.0.0.2", false, true, ""⟩, ⟨"10.0.0.1", false, true, ""⟩] :=
  stateUpdater_order_independence.1 5 sampleState
    [⟨"10.0.0.1", false, true, ""⟩, ⟨"10.0.0.2", false, true, ""⟩]
    [⟨"10.0.0.2", false, true, ""⟩, ⟨"10.0.0.1", false, true, ""⟩]
    (by decide) (by decide)

/-! Helper lemmas for the unmatched-message frame property. -/

theorem updateServices_no_match (now : Int) (services : List Service)
    (u : ServiceUpdate) (h : ∀ s ∈ services, s.Name ≠ u.ServiceName) :
    updateServices now services u = services := by
  induction services with
  | nil => rfl
  | cons service rest ih =>
    have h1 : ¬ service.Name = u.ServiceName := h service (by simp)
    simp [updateServices, h1]
    exact ih fun s hs => h s (List.mem_cons_of_mem _ hs)

theorem updateHosts_no_match (now : Int) (hosts : List Host)
    (u : ServiceUpdate) (h : ∀ host ∈ hosts, host.IP ≠ u.IP) :
    updateHosts now hosts u = hosts := by
  induction hosts with
  | nil => rfl
  | cons host rest ih =>
    have h1 : ¬ u.IP = host.IP := fun e => h host (by simp) e.symm
    simp [updateHosts, h1]
    exact ih fun x hx => h x (List.mem_cons_of_mem _ hx)

theorem applyToHost_no_service_match (now : Int) (host : Host)
    (u : ServiceUpdate) (hu : u.ServiceUpdate = true)
    (h : ∀ s ∈ host.Services, s.Name ≠ u.ServiceName) :
    applyToHost now host u = host := by
  simp [applyToHost, hu, updateServices_no_match now host.Services u h]

theorem updateHosts_no_service_match (now : Int) (hosts : List Host)
    (u : ServiceUpdate) (hu : u.ServiceUpdate = true)
    (h : ∀ host ∈ hosts, host.IP = u.IP →
      ∀ s ∈ host.Services, s.Name ≠ u.ServiceName) :
    updateHosts now hosts u = hosts := by
  induction hosts with
  | nil => rfl
  | cons host rest ih =>
    by_cases c : u.IP = host.IP
    · simp [updateHosts, c,
        applyToHost_no_service_match now host u hu (h host (by simp) c.symm)]
    · simp [updateHosts, c]
      exact ih fun x hx => h x (List.mem_cons_of_mem _ hx)

/-- C10: a ServiceUpdate whose IP matches no Host — or, for a service
update, whose ServiceName matches no Service within the hosts bearing that
IP — leaves the scoreboard state unchanged: the message is silently dropped
with no mutation and no error. -/
theorem stateUpdater_unmatched_message_noop (now : Int) (sbd : State)
    (u : ServiceUpdate) :
    ((∀ host ∈ sbd.Hosts, host.IP ≠ u.IP) →
      sbd.stateUpdaterStep now u = sbd) ∧
    (u.ServiceUpdate = true →
      (∀ host ∈ sbd.Hosts, host.IP = u.IP →
        ∀ s ∈ host.Services, s.Name ≠ u.ServiceName) →
      sbd.stateUpdaterStep now u = sbd) := by
  constructor
  · intro h
    simp [State.stateUpdaterStep, updateHosts_no_match now sbd.Hosts u h]
  · intro hu h
    simp [State.stateUpdaterStep,
      updateHosts_no_service_match now sbd.Hosts u hu h]

/-- Concrete instantiation of `stateUpdater_unmatched_message_noop`: an
ICMP result for the unknown address 9.9.9.9 leaves the sample scoreboard
untouched, and a service result naming an unknown service on a known host
does too. -/
theorem stateUpdater_unmatched_message_noop_witness :
    sampleState.stateUpdaterStep 5 ⟨"9.9.9.9", false, true, ""⟩ =
        sampleState ∧
      sampleState.stateUpdaterStep 5 ⟨"10.0.0.1", true, true, "nosuch"⟩ =
        sampleState :=
  ⟨(stateUpdater_unmatched_message_noop 5 sampleState
      ⟨"9.9.9.9", false, true, ""⟩).1 (by decide),
    (stateUpdater_unmatched_message_noop 5 sampleState
      ⟨"10.0.0.1", true, true, "nosuch"⟩).2 rfl (by decide)⟩

end Goscore
